import Mathlib

/-!
Verification of the playback and multi-layer rendering engine of the
maze-solver visualiser.  The definitions below are shallow embeddings of
the JavaScript source files (mazeRenderer.js, Canvas.jsx, Sidebar.jsx,
hooks/useMazeSolver.js and the unnamed playback hook): JS numbers are
modelled as rationals (exact reals where square roots occur), JS
null/undefined as Option, canvas draw calls as an explicit command trace.
-/

namespace MazeSpec

/-- Integer grid coordinate, stored as (row, col) exactly as in the JSON
payload (paths are arrays of `[row, col]` pairs). -/
abbrev Pos := ℤ × ℤ

/-- One population member as recorded in a frame or in
`solution.final_candidates`.  Optional fields are absent (`undefined`) in
some algorithm payloads. -/
structure Candidate where
  path : Option (List Pos)
  position : Option Pos
  fitness : Option ℚ
  velocity : Option (ℚ × ℚ)
  brightness : Option ℚ
  pheromone_strength : Option ℚ
  solved : Bool
  deriving DecidableEq

/-- One recorded iteration (`solution.history[i]`).  The pheromone map is
the sparse object keyed by "row,col", kept here as an entry list in
insertion order. -/
structure Frame where
  candidates : Option (List Candidate)
  best : Option Candidate
  pheromone_map : Option (List (Pos × ℚ))
  deriving DecidableEq

/-- The terminal solution summary returned by the solver service. -/
structure Solution where
  solved : Bool
  path : Option (List Pos)
  start : Option Pos
  goal : Option Pos
  best_fitness : Option ℚ
  best_candidate : Option Candidate
  final_candidates : Option (List Candidate)
  history : Option (List Frame)
  deriving DecidableEq

/-- The internal algorithm tag (`state.algorithm`): the renderer compares
it against the literals used in mazeRenderer.js. -/
inductive AlgorithmType where
  | pso
  | genetic
  | firefly
  | ant
  deriving DecidableEq

/-! ## PathInterpolator (mazeRenderer.js, drawPath and the marker code in
drawMaze) -/

/-- `Math.max(1, Math.floor(pathPoints.length * progress))` from
`drawPath` (mazeRenderer.js line 7).  A negative floor is truncated by
`Int.toNat`, after which `max 1` agrees with the JS `Math.max`. -/
def visibleCount (len : ℕ) (progress : ℚ) : ℕ :=
  max 1 (⌊(len : ℚ) * progress⌋).toNat

/-- The prefix of the path actually stroked by `drawPath`
(mazeRenderer.js lines 3-8): null or empty input draws nothing, otherwise
the first `visibleCount` points. -/
def drawPathSegment (pathPoints : Option (List Pos)) (progress : ℚ) : List Pos :=
  match pathPoints with
  | none => []
  | some pts => if pts.length = 0 then [] else pts.take (visibleCount pts.length progress)

/-- The explorer head-marker position computed in `drawMaze`
(mazeRenderer.js lines 330-331):
`path[Math.min(visibleCount - 1, path.length - 1)]`.  For the empty path
the JS index is `-1` and the lookup yields `undefined`; natural-number
truncation gives the same `none`. -/
def explorerMarker (path : List Pos) (progress : ℚ) : Option Pos :=
  path[min (visibleCount path.length progress - 1) (path.length - 1)]?

/-- Specification-side clamp on naturals: `clamp x lo hi`. -/
def clampNat (x lo hi : ℕ) : ℕ :=
  min (max x lo) hi

/-! ## FrameClock and HistoryCursor state (hooks/useMazeSolver.js and the
usePlayback hook) -/

/-- The slice of the `useMazeSolver` React state that the playback clock,
the history cursor and the Canvas component read.  Size/seed/analysis
bookkeeping and the tuning parameters are not observed by any claim and
are omitted. -/
structure SolverState where
  maze : List (List ℕ)
  history : List Frame
  solution : Option Solution
  algorithm : AlgorithmType
  currentStep : ℕ
  frameProgress : ℚ
  isRunning : Bool
  speedMs : ℚ
  runFailed : Bool
  showVelocities : Bool
  showHeatmap : Bool
  showTopPerformers : Bool
  showMetrics : Bool
  showPheromones : Bool
  deriving DecidableEq

/-- `Math.max(20, Math.min(1000, speedMs))` (usePlayback line 9). -/
def stepDuration (speedMs : ℚ) : ℚ :=
  max 20 (min 1000 speedMs)

/-- One invocation of the state updater inside `usePlayback`'s `tick`
(lines 15-25): advance the fractional progress by `delta / stepDur`; on
crossing 1 either step to the next frame carrying `nextProgress - 1`, or,
when the history is exhausted, stop. -/
def playbackTick (s : SolverState) (delta : ℚ) : SolverState :=
  let stepDur := stepDuration s.speedMs
  let nextProgress := s.frameProgress + delta / stepDur
  if nextProgress ≥ 1 then
    let nextStep := s.currentStep + 1
    if nextStep ≥ s.history.length then
      { s with isRunning := false }
    else
      { s with currentStep := nextStep, frameProgress := nextProgress - 1 }
  else
    { s with frameProgress := nextProgress }

/-- The solve-response payload consumed by `runSolver`
(hooks/useMazeSolver.js lines 169-184). -/
structure SolveResponse where
  maze : Option (List (List ℕ))
  solution : Option Solution
  deriving DecidableEq

/-- The single atomic state update that `runSolver` applies on a solve
response (hooks/useMazeSolver.js lines 170-184; identical logic in the
`updateSolverState` helper of the older hook variant).  All playback
fields change in one `update` call, so no intermediate state is ever
observable. -/
def updateSolverState (s : SolverState) (data : SolveResponse) : SolverState :=
  let hist := (data.solution.bind Solution.history).getD []
  let solved := (data.solution.map Solution.solved).getD false
  { s with
    maze := data.maze.getD []
    solution := data.solution
    history := hist
    runFailed := !solved
    currentStep := if !solved && !hist.isEmpty then hist.length - 1 else 0
    frameProgress := if !solved && !hist.isEmpty then 1 else 0
    isRunning := solved && !hist.isEmpty }

/-! ## HistoryCursor resolution (components/Canvas.jsx lines 10-15) -/

/-- `state.history[Math.min(state.currentStep, state.history.length - 1)]`:
for an empty history the JS index is `-1` and the lookup is `undefined`;
natural-number truncation produces the same `none`. -/
def activeFrame (history : List Frame) (currentStep : ℕ) : Option Frame :=
  history[min currentStep (history.length - 1)]?

/-- `state.solution?.final_candidates ?? []`. -/
def fallbackCandidates (solution : Option Solution) : List Candidate :=
  (solution.bind Solution.final_candidates).getD []

/-- `frame?.candidates ?? fallbackCandidates`. -/
def resolveExplorers (history : List Frame) (currentStep : ℕ)
    (solution : Option Solution) : List Candidate :=
  ((activeFrame history currentStep).bind Frame.candidates).getD
    (fallbackCandidates solution)

/-- `frame?.best ?? state.solution?.best_candidate ?? null`. -/
def resolveBest (history : List Frame) (currentStep : ℕ)
    (solution : Option Solution) : Option Candidate :=
  ((activeFrame history currentStep).bind Frame.best).orElse
    (fun _ => solution.bind Solution.best_candidate)

/-- `frameBest?.path ?? state.solution?.path ?? []`. -/
def resolveBestPath (history : List Frame) (currentStep : ℕ)
    (solution : Option Solution) : List Pos :=
  (((resolveBest history currentStep solution).bind Candidate.path).orElse
    (fun _ => solution.bind Solution.path)).getD []

/-! ## LayerCompositor (mazeRenderer.js, drawMaze and its helpers)

Canvas 2D drawing is modelled as a trace of abstract commands.  Every
command records exactly the values the source computes from its inputs;
draws whose final pixels additionally pass through `Math.sqrt`,
`Math.atan2`, `Math.cos` or `Math.sin` (the velocity arrow, radial
gradients) are kept as single commands carrying the rational arguments of
those pure functions. -/

/-- `CELL_SIZE = 24` (mazeRenderer.js line 1). -/
def CELL_SIZE : ℚ := 24

/-- A CSS paint value, abstracted: hex literals keep their numeric code,
hsl/hsla/rgba keep their computed components, radial gradients keep
centre/radius data and their two colour stops. -/
inductive Paint where
  | hexp (code : ℕ)
  | hexpa (code : ℕ)
  | hsl (h s l : ℚ)
  | hsla (h s l a : ℚ)
  | rgba (r g b a : ℚ)
  | radial (x0 y0 r0 x1 y1 r1 : ℚ) (inner outer : Paint)
  deriving DecidableEq

/-- One abstract canvas drawing command. -/
inductive Cmd where
  | fillRect (paint : Paint) (alpha x y w h : ℚ)
  | strokeRect (paint : Paint) (lineWidth x y w h : ℚ)
  | strokePolyline (paint : Paint) (alpha lineWidth : ℚ) (points : List (ℚ × ℚ))
  | fillCircle (paint : Paint) (x y r : ℚ)
  | strokeCircle (paint : Paint) (lineWidth x y r : ℚ)
  | velocityArrow (x y vx vy : ℚ)
  | fillText (paint : Paint) (value x y : ℚ)
  deriving DecidableEq

/-- Pixel centre of a grid cell: `(col*CELL_SIZE + CELL_SIZE/2,
row*CELL_SIZE + CELL_SIZE/2)`. -/
def cellCenter (p : Pos) : ℚ × ℚ :=
  ((p.2 : ℚ) * CELL_SIZE + CELL_SIZE / 2, (p.1 : ℚ) * CELL_SIZE + CELL_SIZE / 2)

/-- `Math.round` on a rational: round half toward positive infinity. -/
def jsRound (q : ℚ) : ℤ :=
  ⌊q + 1 / 2⌋

/-- The stroke emitted by `drawPath` (mazeRenderer.js lines 3-25): one
polyline through the centres of the visible prefix, at the given colour,
global alpha and line width.  Null or empty paths emit nothing. -/
def drawPathOps (pathPoints : Option (List Pos)) (color : Paint)
    (width progress alpha : ℚ) : List Cmd :=
  match pathPoints with
  | none => []
  | some pts =>
    if pts.length = 0 then []
    else [Cmd.strokePolyline color alpha width
      ((pts.take (visibleCount pts.length progress)).map cellCenter)]

/-- `drawVelocityVectors` (mazeRenderer.js lines 28-79).  The source
compares `Math.sqrt(vx*vx + vy*vy) > 0.01`; squaring both sides gives the
equivalent rational test.  The arrow line and arrowhead are a pure
function of `(x, y, vx, vy)`, bundled into one command. -/
def drawVelocityVectorsOps (explorers : List Candidate) (progress : ℚ) : List Cmd :=
  explorers.flatMap fun e =>
    match e.velocity with
    | none => []
    | some (vx, vy) =>
      let pts := e.path.getD []
      if pts.length = 0 then []
      else
        let vc := visibleCount pts.length progress
        match pts[min (vc - 1) (pts.length - 1)]? with
        | none => []
        | some rc =>
          if vx ^ 2 + vy ^ 2 > 1 / 10000 then
            let c := cellCenter rc
            [Cmd.velocityArrow c.1 c.2 vx vy]
          else []

/-- `drawPheromoneTrails` (mazeRenderer.js lines 82-122): one tinted cell
per map entry, in entry order, plus a radial glow for strengths above
0.5; everything at global alpha 0.4. -/
def drawPheromoneTrailsOps (pheromoneMap : Option (List (Pos × ℚ))) : List Cmd :=
  match pheromoneMap with
  | none => []
  | some entries =>
    entries.flatMap fun entry =>
      let row : ℚ := entry.1.1
      let col : ℚ := entry.1.2
      let strength := entry.2
      let hue := 180 + strength * 60
      let saturation := 70 + strength * 30
      let lightness := 40 + strength * 30
      [Cmd.fillRect (Paint.hsl hue saturation lightness) (4 / 10)
        (col * CELL_SIZE) (row * CELL_SIZE) CELL_SIZE CELL_SIZE] ++
      (if strength > 1 / 2 then
        [Cmd.fillRect
          (Paint.radial (col * CELL_SIZE + CELL_SIZE / 2) (row * CELL_SIZE + CELL_SIZE / 2) 0
            (col * CELL_SIZE + CELL_SIZE / 2) (row * CELL_SIZE + CELL_SIZE / 2) CELL_SIZE
            (Paint.hsla hue saturation lightness (strength * 6 / 10))
            (Paint.rgba 0 0 0 0))
          (4 / 10)
          (col * CELL_SIZE - CELL_SIZE / 2) (row * CELL_SIZE - CELL_SIZE / 2)
          (CELL_SIZE * 2) (CELL_SIZE * 2)]
      else [])

/-- Accumulating update of a JS object used as a map: add `v` to the
entry at `k`, or append `(k, v)`, preserving first-insertion order. -/
def bumpAssoc (m : List (Pos × ℚ)) (k : Pos) (v : ℚ) : List (Pos × ℚ) :=
  match m with
  | [] => [(k, v)]
  | (k', v') :: rest =>
    if k' = k then (k', v' + v) :: rest else (k', v') :: bumpAssoc rest k v

/-- Same, keeping the maximum instead of the sum. -/
def maxAssoc (m : List (Pos × ℚ)) (k : Pos) (v : ℚ) : List (Pos × ℚ) :=
  match m with
  | [] => [(k, v)]
  | (k', v') :: rest =>
    if k' = k then (k', max v' v) :: rest else (k', v') :: maxAssoc rest k v

/-- `cellVisits` of `drawFitnessHeatmap` (mazeRenderer.js lines 126-136):
per-cell sum of `explorer.fitness || 0` over every point of every
explorer path, in visit order. -/
def heatCellVisits (explorers : List Candidate) : List (Pos × ℚ) :=
  explorers.foldl
    (fun m e => (e.path.getD []).foldl (fun m' rc => bumpAssoc m' rc (e.fitness.getD 0)) m)
    []

/-- `maxVisits` of `drawFitnessHeatmap`: per-cell maximum fitness. -/
def heatMaxVisits (explorers : List Candidate) : List (Pos × ℚ) :=
  explorers.foldl
    (fun m e => (e.path.getD []).foldl (fun m' rc => maxAssoc m' rc (e.fitness.getD 0)) m)
    []

/-- `drawFitnessHeatmap` (mazeRenderer.js lines 125-150):
`maxFitness = Math.max(...Object.values(maxVisits), 1)`, then one cell
fill per visited cell with hue `120 - min(value/maxFitness, 1) * 60` at
global alpha 0.3. -/
def drawFitnessHeatmapOps (explorers : List Candidate) : List Cmd :=
  let maxFitness := ((heatMaxVisits explorers).map Prod.snd).foldl max 1
  (heatCellVisits explorers).map fun entry =>
    let intensity := min (entry.2 / maxFitness) 1
    Cmd.fillRect (Paint.hsl (120 - intensity * 60) 80 50) (3 / 10)
      ((entry.1.2 : ℚ) * CELL_SIZE) ((entry.1.1 : ℚ) * CELL_SIZE) CELL_SIZE CELL_SIZE

/-- `drawBestPerformers` (mazeRenderer.js lines 153-192): stable sort by
fitness descending, take the top `topN`, and for each a radial glow at the
final path point plus a numbered badge. -/
def drawBestPerformersOps (explorers : List Candidate) (topN : ℕ) : List Cmd :=
  let sorted := explorers.mergeSort fun a b => b.fitness.getD 0 ≤ a.fitness.getD 0
  let best := sorted.take topN
  best.enum.flatMap fun re =>
    let rank : ℚ := re.1
    let e := re.2
    match (e.path.getD []).getLast? with
    | none => []
    | some rc =>
      let c := cellCenter rc
      [Cmd.fillCircle
        (Paint.radial c.1 c.2 0 c.1 c.2 (CELL_SIZE * 3 / 2)
          (Paint.rgba 255 215 0 (6 / 10 - rank / 10)) (Paint.rgba 255 215 0 0))
        c.1 c.2 (CELL_SIZE * 3 / 2),
      Cmd.fillCircle (Paint.hexp 0xfbbf24)
        (c.1 - CELL_SIZE / 3) (c.2 - CELL_SIZE / 3) (CELL_SIZE / 4),
      Cmd.strokeCircle (Paint.hexp 0x78350f) 2
        (c.1 - CELL_SIZE / 3) (c.2 - CELL_SIZE / 3) (CELL_SIZE / 4),
      Cmd.fillText (Paint.hexp 0x78350f) (rank + 1)
        (c.1 - CELL_SIZE / 3) (c.2 - CELL_SIZE / 3)]

/-- `drawDiversityIndicator` (mazeRenderer.js lines 195-227): fraction of
distinct end positions over population size, drawn as a bar with a
percentage label. -/
def drawDiversityIndicatorOps (explorers : List Candidate) (canvasWidth : ℚ) : List Cmd :=
  if explorers.isEmpty then []
  else
    let uniq := (explorers.filterMap fun e => (e.path.getD []).getLast?).dedup.length
    let diversity : ℚ := (uniq : ℚ) / explorers.length
    [Cmd.fillRect (Paint.rgba 15 23 42 (8 / 10)) 1 5 5 (canvasWidth - 10) 8,
     Cmd.fillRect (Paint.hsl (diversity * 120) 70 50) 1 5 5 ((canvasWidth - 10) * diversity) 8,
     Cmd.strokeRect (Paint.hexp 0x334155) 1 5 5 (canvasWidth - 10) 8,
     Cmd.fillText (Paint.hexp 0xf8fafc) (diversity * 100) 10 23]

/-- `drawConvergenceIndicator` (mazeRenderer.js lines 230-271): fraction
of explorers whose end position lies within the 3-cell box tolerance of
some point of the best path, drawn as a bar at the top right. -/
def drawConvergenceIndicatorOps (explorers : List Candidate) (bestPath : List Pos)
    (canvasWidth _canvasHeight : ℚ) : List Cmd :=
  if explorers.isEmpty || bestPath.isEmpty then []
  else
    let nearBest := explorers.countP fun e =>
      match (e.path.getD []).getLast? with
      | none => false
      | some lp => bestPath.any fun bp =>
          (bp.1 - lp.1).natAbs ≤ 3 && (bp.2 - lp.2).natAbs ≤ 3
    let convergence : ℚ := (nearBest : ℚ) / explorers.length
    let barX := canvasWidth - 120 - 10
    [Cmd.fillRect (Paint.rgba 15 23 42 (8 / 10)) 1 barX 5 120 8,
     Cmd.fillRect (Paint.hsla 200 70 50 (1 / 2 + convergence * (1 / 2))) 1 barX 5
       (120 * convergence) 8,
     Cmd.strokeRect (Paint.hexp 0x334155) 1 barX 5 120 8,
     Cmd.fillText (Paint.hexp 0xf8fafc) (convergence * 100) (canvasWidth - 10) 23]

/-- The argument object of the composite render call `drawMaze`
(mazeRenderer.js lines 273-288), minus the canvas itself. -/
structure DrawArgs where
  maze : List (List ℕ)
  explorers : List Candidate
  bestPath : List Pos
  solution : Option Solution
  frameProgress : ℚ
  isRunning : Bool
  algorithmType : AlgorithmType
  showVelocities : Bool
  showHeatmap : Bool
  showTopPerformers : Bool
  showMetrics : Bool
  showPheromones : Bool
  pheromoneMap : Option (List (Pos × ℚ))
  deriving DecidableEq

/-- `const progress = isRunning ? frameProgress : 1` (mazeRenderer.js
line 322): the single effective progress value every trajectory layer
uses. -/
def effectiveProgress (a : DrawArgs) : ℚ :=
  if a.isRunning then a.frameProgress else 1

/-- Guard of the pheromone background overlay (mazeRenderer.js line 310):
`showPheromones && algorithmType === 'ant' && pheromoneMap` (an empty map
object is still truthy, so only presence is tested). -/
def pheromoneGuard (a : DrawArgs) : Bool :=
  a.showPheromones && decide (a.algorithmType = AlgorithmType.ant) && a.pheromoneMap.isSome

/-- Guard of the fitness heat-field overlay (mazeRenderer.js line 315):
`showHeatmap && algorithmType === 'genetic' && explorers && explorers.length > 0`. -/
def heatmapGuard (a : DrawArgs) : Bool :=
  a.showHeatmap && decide (a.algorithmType = AlgorithmType.genetic) && !a.explorers.isEmpty

/-- The pheromone background layer as placed in the composite
(mazeRenderer.js lines 310-312). -/
def pheromoneLayerOps (a : DrawArgs) : List Cmd :=
  if pheromoneGuard a then drawPheromoneTrailsOps a.pheromoneMap else []

/-- The fitness heat-field background layer as placed in the composite
(mazeRenderer.js lines 315-317). -/
def heatmapLayerOps (a : DrawArgs) : List Cmd :=
  if heatmapGuard a then drawFitnessHeatmapOps a.explorers else []

/-- Base grid layer (mazeRenderer.js lines 302-307): one filled cell per
grid position, wall colour for `1`, open colour otherwise. -/
def baseCellsOps (maze : List (List ℕ)) : List Cmd :=
  maze.enum.flatMap fun rrow =>
    rrow.2.enum.map fun ccell =>
      Cmd.fillRect (if ccell.2 = 1 then Paint.hexp 0x1e293b else Paint.hexpa 0xc3d3ebff) 1
        ((ccell.1 : ℚ) * CELL_SIZE) ((rrow.1 : ℚ) * CELL_SIZE) CELL_SIZE CELL_SIZE

/-- Per-explorer trajectory strokes and head markers (mazeRenderer.js
lines 326-345): candidate `i` of `n` gets hue `round((i/n)*360)`, its
interpolated path at partial opacity, and a filled head circle at the
marker position. -/
def explorerPathsOps (explorers : List Candidate) (progress : ℚ) : List Cmd :=
  explorers.enum.flatMap fun ie =>
    let hue : ℚ := jsRound ((ie.1 : ℚ) / (explorers.length : ℚ) * 360)
    let color := Paint.hsla hue 70 65 (65 / 100)
    let pts := ie.2.path.getD []
    drawPathOps ie.2.path color (CELL_SIZE / 3) progress (8 / 10) ++
      (match explorerMarker pts progress with
       | none => []
       | some rc =>
         let c := cellCenter rc
         [Cmd.fillCircle color c.1 c.2 (CELL_SIZE / 6)])

/-- The explorer block of the composite (mazeRenderer.js lines 325-356):
trajectories and markers, then the PSO velocity arrows and the top-5
performer highlight, all gated on a non-empty explorer list. -/
def explorerBlockOps (a : DrawArgs) (progress : ℚ) : List Cmd :=
  if a.explorers.isEmpty then []
  else
    explorerPathsOps a.explorers progress ++
      (if a.showVelocities && decide (a.algorithmType = AlgorithmType.pso) then
        drawVelocityVectorsOps a.explorers progress
      else []) ++
      (if a.showTopPerformers then drawBestPerformersOps a.explorers 5 else [])

/-- Best-path layer (mazeRenderer.js lines 359-361). -/
def bestPathLayerOps (bestPath : List Pos) (progress : ℚ) : List Cmd :=
  if bestPath.isEmpty then []
  else drawPathOps (some bestPath) (Paint.hexpa 0xff0000ff) (CELL_SIZE / (5 / 2)) progress 1

/-- Start/goal markers (mazeRenderer.js lines 364-373). -/
def startGoalOps (solution : Option Solution) : List Cmd :=
  (match solution.bind Solution.start with
   | none => []
   | some st => [Cmd.fillRect (Paint.hexp 0x10b981) 1
      ((st.2 : ℚ) * CELL_SIZE) ((st.1 : ℚ) * CELL_SIZE) CELL_SIZE CELL_SIZE]) ++
  (match solution.bind Solution.goal with
   | none => []
   | some gl => [Cmd.fillRect (Paint.hexp 0xef4444) 1
      ((gl.2 : ℚ) * CELL_SIZE) ((gl.1 : ℚ) * CELL_SIZE) CELL_SIZE CELL_SIZE])

/-- HUD indicator block (mazeRenderer.js lines 376-381): drawn only when
`showMetrics` is truthy and explorers are present; the convergence bar
additionally needs a non-empty best path. -/
def hudOps (a : DrawArgs) (canvasWidth canvasHeight : ℚ) : List Cmd :=
  if a.showMetrics && !a.explorers.isEmpty then
    drawDiversityIndicatorOps a.explorers canvasWidth ++
      (if a.bestPath.isEmpty then []
       else drawConvergenceIndicatorOps a.explorers a.bestPath canvasWidth canvasHeight)
  else []

/-- The full composite draw pass of `drawMaze` (mazeRenderer.js lines
293-381) as a command trace, layers in source order. -/
def renderOps (a : DrawArgs) : List Cmd :=
  let rows := a.maze.length
  let cols := (a.maze.head?.getD []).length
  let w : ℚ := (cols : ℚ) * CELL_SIZE
  let h : ℚ := (rows : ℚ) * CELL_SIZE
  let progress := effectiveProgress a
  baseCellsOps a.maze ++
    pheromoneLayerOps a ++
    heatmapLayerOps a ++
    [Cmd.strokeRect (Paint.hexp 0x334155) 1 0 0 w h] ++
    explorerBlockOps a progress ++
    bestPathLayerOps a.bestPath progress ++
    startGoalOps a.solution ++
    hudOps a w h

/-- The raster surface: its pixel extent plus the commands drawn since
the last full wipe. -/
structure CanvasSurface where
  width : ℚ
  height : ℚ
  content : List Cmd
  deriving DecidableEq

/-- Assigning `canvas.width`/`canvas.height` resets the raster to a blank
surface of the new extent (HTML canvas semantics). -/
def setCanvasSize (_c : CanvasSurface) (w h : ℚ) : CanvasSurface :=
  { width := w, height := h, content := [] }

/-- `ctx.clearRect(0, 0, canvas.width, canvas.height)` erases the whole
surface. -/
def clearFull (c : CanvasSurface) : CanvasSurface :=
  { c with content := [] }

/-- `drawMaze` applied to a canvas (mazeRenderer.js lines 273-382): bail
out on an empty maze, otherwise resize to `cols*CELL_SIZE` by
`rows*CELL_SIZE`, clear, and draw the composite trace. -/
def drawMazeOn (c : CanvasSurface) (a : DrawArgs) : CanvasSurface :=
  if a.maze.length = 0 then c
  else
    let rows := a.maze.length
    let cols := (a.maze.head?.getD []).length
    let c1 := setCanvasSize c ((cols : ℚ) * CELL_SIZE) ((rows : ℚ) * CELL_SIZE)
    let c2 := clearFull c1
    { c2 with content := c2.content ++ renderOps a }

/-- The argument object Canvas.jsx builds for `drawMaze` (lines 17-31).
The JSX omits the `showMetrics` property entirely, so inside `drawMaze`
that argument is `undefined`, i.e. falsy: modelled as `false`. -/
def canvasDrawArgs (s : SolverState) : DrawArgs :=
  { maze := s.maze
    explorers := resolveExplorers s.history s.currentStep s.solution
    bestPath := resolveBestPath s.history s.currentStep s.solution
    solution := s.solution
    frameProgress := s.frameProgress
    isRunning := s.isRunning
    algorithmType := s.algorithm
    showVelocities := s.showVelocities
    showHeatmap := s.showHeatmap
    showTopPerformers := s.showTopPerformers
    showMetrics := false
    showPheromones := s.showPheromones
    pheromoneMap := (activeFrame s.history s.currentStep).bind Frame.pheromone_map }

/-! ## MetricsFallback (components/Sidebar.jsx, calculateDiversity and
calculateConvergence).  `Math.sqrt` forces these definitions into the
real numbers, hence they are noncomputable; every other definition in
this file is executable. -/

/-- A candidate's current end position: `e.position` if present, else the
last point of a non-empty path, else null (Sidebar.jsx lines 45-49 and
83-84; `position` is an array, so JS `||` and `??` agree on it). -/
def endPosition (e : Candidate) : Option Pos :=
  e.position.orElse fun _ => (e.path.getD []).getLast?

/-- Euclidean distance between two grid positions:
`Math.sqrt((r1-r2)**2 + (c1-c2)**2)`. -/
noncomputable def euclidDist (p q : Pos) : ℝ :=
  Real.sqrt (((p.1 - q.1 : ℤ) : ℝ) ^ 2 + ((p.2 - q.2 : ℤ) : ℝ) ^ 2)

/-- Ordered pairs `(i, j)` with `i < j` of a list, in the double-loop
order of Sidebar.jsx lines 56-64. -/
def pairsAfter : List Pos → List (Pos × Pos)
  | [] => []
  | x :: xs => (xs.map fun y => (x, y)) ++ pairsAfter xs

/-- `maze.length * (maze[0]?.length || 1)`: the column count used by the
diversity normaliser, with `1` substituted for a missing or empty first
row. -/
def jsCols (maze : List (List ℕ)) : ℕ :=
  let c := (maze.head?.getD []).length
  if c = 0 then 1 else c

/-- `calculateDiversity` (Sidebar.jsx lines 42-68): average pairwise
Euclidean distance between valid end positions, normalised by
`Math.sqrt(maze.length * (maze[0]?.length || 1))`; 0 with fewer than two
candidates or fewer than two valid positions. -/
noncomputable def calculateDiversity (explorers : List Candidate)
    (maze : List (List ℕ)) : ℝ :=
  if explorers.length < 2 then 0
  else
    let positions := explorers.filterMap endPosition
    if positions.length < 2 then 0
    else
      let pairs := pairsAfter positions
      let totalDistance := (pairs.map fun pq => euclidDist pq.1 pq.2).sum
      let comparisons := pairs.length
      let mazeSize := Real.sqrt ((maze.length : ℝ) * (jsCols maze : ℝ))
      if 0 < comparisons then totalDistance / (comparisons : ℝ) / mazeSize else 0

/-- The `avgDistance` of `calculateConvergence` (Sidebar.jsx lines
80-95): mean Euclidean distance from each valid end position to the best
position, 0 when no candidate has a valid position. -/
noncomputable def convergenceAvgDistance (explorers : List Candidate)
    (bestPos : Pos) : ℝ :=
  let dists := explorers.filterMap fun e => (endPosition e).map fun p => euclidDist p bestPos
  if 0 < dists.length then dists.sum / (dists.length : ℝ) else 0

/-- `calculateConvergence` (Sidebar.jsx lines 71-97): 0 with fewer than
two candidates, no best candidate, or a best candidate without a valid
position; otherwise `1 / (1 + avgDistance)`. -/
noncomputable def calculateConvergence (explorers : List Candidate)
    (bestCandidate : Option Candidate) : ℝ :=
  match bestCandidate with
  | none => 0
  | some b =>
    if explorers.length < 2 then 0
    else
      match endPosition b with
      | none => 0
      | some bestPos => 1 / (1 + convergenceAvgDistance explorers bestPos)

/-! ## Concrete fixtures used by counterexamples and witnesses -/

/-- A frame carrying no optional data. -/
def blankFrame : Frame :=
  { candidates := none, best := none, pheromone_map := none }

/-- The initial `useMazeSolver` state (hooks/useMazeSolver.js lines
18-54), restricted to the modelled fields. -/
def initialState : SolverState :=
  { maze := []
    history := []
    solution := none
    algorithm := AlgorithmType.pso
    currentStep := 0
    frameProgress := 0
    isRunning := false
    speedMs := 100
    runFailed := false
    showVelocities := true
    showHeatmap := true
    showTopPerformers := true
    showMetrics := true
    showPheromones := true }

/-- Running playback over a 5-frame history at step 0, progress 0,
speed 100ms: one tick of 250ms elapsed crosses more than two whole
steps. -/
def tickBurstState : SolverState :=
  { initialState with
    history := [blankFrame, blankFrame, blankFrame, blankFrame, blankFrame]
    isRunning := true }

/-- The same playback sitting on the final frame with fractional stored
progress. -/
def tickFinalState : SolverState :=
  { tickBurstState with currentStep := 4, frameProgress := 2 / 5 }

/-- A candidate with only a one-point path. -/
def pathCandidate : Candidate :=
  { path := some [(0, 0)]
    position := none
    fitness := some 1
    velocity := none
    brightness := none
    pheromone_strength := none
    solved := false }

/-- A candidate standing at a fixed position with no path. -/
def atPos (p : Pos) : Candidate :=
  { path := none
    position := some p
    fitness := none
    velocity := none
    brightness := none
    pheromone_strength := none
    solved := false }

/-- A frame carrying candidates and a best. -/
def dataFrame : Frame :=
  { candidates := some [pathCandidate], best := some pathCandidate, pheromone_map := none }

/-- A failed solve result with a two-frame history. -/
def failedSolution : Solution :=
  { solved := false
    path := none
    start := none
    goal := none
    best_fitness := none
    best_candidate := none
    final_candidates := none
    history := some [blankFrame, blankFrame] }

/-- The solve response wrapping `failedSolution`. -/
def failedResponse : SolveResponse :=
  { maze := some [[0]], solution := some failedSolution }

/-- A terminal solution used to exercise the Canvas fallback chains. -/
def fallbackSolution : Solution :=
  { solved := true
    path := some [(1, 1)]
    start := none
    goal := none
    best_fitness := none
    best_candidate := none
    final_candidates := some [pathCandidate]
    history := none }

/-- A minimal render argument set over a one-cell maze. -/
def tinyArgs : DrawArgs :=
  { maze := [[1]]
    explorers := []
    bestPath := []
    solution := none
    frameProgress := 0
    isRunning := false
    algorithmType := AlgorithmType.pso
    showVelocities := true
    showHeatmap := true
    showTopPerformers := true
    showMetrics := true
    showPheromones := true
    pheromoneMap := none }

/-- Render arguments that enable the pheromone overlay. -/
def antArgs : DrawArgs :=
  { tinyArgs with algorithmType := AlgorithmType.ant, pheromoneMap := some [((0, 0), 1)] }

/-- Render arguments that enable the fitness heat field. -/
def geneticArgs : DrawArgs :=
  { tinyArgs with algorithmType := AlgorithmType.genetic, explorers := [pathCandidate] }

/-- A canvas still holding content from an earlier, larger render. -/
def staleCanvas : CanvasSurface :=
  { width := 480, height := 480, content := [Cmd.fillRect (Paint.hexp 0) 1 0 0 480 480] }

/-- A fresh canvas. -/
def blankCanvas : CanvasSurface :=
  { width := 0, height := 0, content := [] }

/-! ## Theorems -/

/-- Helper: for `0 ≤ g ≤ 1` the floored visible count is at most the
path length. -/
theorem floor_visible_le (L : ℕ) (g : ℚ) (h1 : g ≤ 1) :
    (⌊(L : ℚ) * g⌋).toNat ≤ L := by
  have hle : (L : ℚ) * g ≤ (L : ℚ) := mul_le_of_le_one_right (by positivity) h1
  have hfl : ⌊(L : ℚ) * g⌋ ≤ ⌊((L : ℕ) : ℚ)⌋ := Int.floor_le_floor hle
  rw [Int.floor_natCast] at hfl
  calc (⌊(L : ℚ) * g⌋).toNat ≤ ((L : ℤ)).toNat := Int.toNat_le_toNat hfl
    _ = L := Int.toNat_natCast L

/-- Helper: `visibleCount` lies between 1 and the path length when
`0 ≤ g ≤ 1` and the path is non-empty. -/
theorem visibleCount_le_length (L : ℕ) (g : ℚ) (hL : 1 ≤ L) (h1 : g ≤ 1) :
    1 ≤ visibleCount L g ∧ visibleCount L g ≤ L := by
  refine ⟨le_max_left _ _, ?_⟩
  exact max_le hL (floor_visible_le L g h1)

/-- Claim C1: for every path `P` and progress `g ∈ [0,1]`, a null or
empty path draws no segment and yields no marker; otherwise the drawn
segment is exactly the first `clamp(floor(L*g), 1, L)` points of `P`
(length 1 at `g = 0`, length `L` at `g = 1`) and the marker is the last
point of that segment. -/
theorem drawPath_progress_spec (P : List Pos) (g : ℚ) (h0 : 0 ≤ g) (h1 : g ≤ 1) :
    drawPathSegment none g = [] ∧
    drawPathSegment (some []) g = [] ∧
    explorerMarker [] g = none ∧
    (P ≠ [] →
      drawPathSegment (some P) g =
        P.take (clampNat (⌊(P.length : ℚ) * g⌋).toNat 1 P.length) ∧
      (g = 0 → (drawPathSegment (some P) g).length = 1) ∧
      (g = 1 → drawPathSegment (some P) g = P) ∧
      explorerMarker P g = (drawPathSegment (some P) g).getLast?) := by
  refine ⟨rfl, rfl, rfl, fun hne => ?_⟩
  have hL : 1 ≤ P.length := List.length_pos.mpr hne
  have hLne : P.length ≠ 0 := Nat.pos_iff_ne_zero.mp hL
  obtain ⟨hv1, hvL⟩ := visibleCount_le_length P.length g hL h1
  have hseg : drawPathSegment (some P) g = P.take (visibleCount P.length g) := by
    simp [drawPathSegment, hLne]
  have hclamp : clampNat (⌊(P.length : ℚ) * g⌋).toNat 1 P.length = visibleCount P.length g := by
    unfold clampNat visibleCount
    rw [max_comm]
    exact min_eq_left (max_le hL (floor_visible_le P.length g h1))
  refine ⟨by rw [hseg, hclamp], ?_, ?_, ?_⟩
  · intro hg0
    subst hg0
    rw [hseg]
    simp [visibleCount, List.length_take]
    omega
  · intro hg1
    subst hg1
    rw [hseg]
    have : visibleCount P.length 1 = P.length := by
      unfold visibleCount
      rw [mul_one, Int.floor_natCast, Int.toNat_natCast]
      omega
    rw [this, List.take_length]
  · have hmin : min (visibleCount P.length g - 1) (P.length - 1) =
        visibleCount P.length g - 1 :=
      min_eq_left (Nat.sub_le_sub_right hvL 1)
    rw [hseg, explorerMarker, hmin, List.getLast?_eq_getElem?]
    rw [List.length_take, min_eq_left hvL]
    exact (List.getElem?_take_of_lt (by omega)).symm

/-- Witness for C1 at the spec's own scenario: a 2-point path at
progress 0.5 reveals exactly its first point, which is also the marker. -/
theorem drawPath_progress_spec_witness :
    (0 : ℚ) ≤ 1 / 2 ∧ (1 : ℚ) / 2 ≤ 1 ∧
    drawPathSegment (some [((0 : ℤ), (0 : ℤ)), (0, 1)]) (1 / 2) = [(0, 0)] ∧
    explorerMarker [((0 : ℤ), (0 : ℤ)), (0, 1)] (1 / 2) = some (0, 0) := by
  have h := drawPath_progress_spec [((0 : ℤ), (0 : ℤ)), (0, 1)] (1 / 2)
    (by norm_num) (by norm_num)
  obtain ⟨-, -, -, h4⟩ := h
  obtain ⟨hseg, -, -, hmark⟩ := h4 (by simp)
  have hfl : (⌊(([((0 : ℤ), (0 : ℤ)), (0, 1)].length : ℚ)) * (1 / 2)⌋) = 1 := by
    norm_num
  refine ⟨by norm_num, by norm_num, ?_, ?_⟩
  · rw [hseg, hfl]; decide
  · rw [hmark, hseg, hfl]; decide

/-- Counterexample to claim C2.  With 5 frames, step 0, progress 0 and
speed 100ms, a single 250ms tick gives `nextProgress = 5/2`: the claim
demands an advance by `floor(5/2) = 2` steps with remainder `1/2`, but the
code advances exactly one step and stores progress `3/2`.  And sitting on
the final frame with stored progress `2/5`, a tick that overflows merely
stops the clock: the stored progress stays `2/5`, it is never clamped
to 1. -/
theorem playbackTick_claim_counterexample :
    tickBurstState.frameProgress + 250 / stepDuration tickBurstState.speedMs = 5 / 2 ∧
    (playbackTick tickBurstState 250).currentStep = 1 ∧
    (playbackTick tickBurstState 250).frameProgress = 3 / 2 ∧
    ¬((playbackTick tickBurstState 250).currentStep =
        tickBurstState.currentStep + (⌊(5 : ℚ) / 2⌋).toNat ∧
      (playbackTick tickBurstState 250).frameProgress = 5 / 2 - ⌊(5 : ℚ) / 2⌋) ∧
    (playbackTick tickFinalState 100).isRunning = false ∧
    (playbackTick tickFinalState 100).frameProgress = 2 / 5 ∧
    ((2 : ℚ) / 5) ≠ 1 := by
  have hburst : playbackTick tickBurstState 250 =
      { tickBurstState with currentStep := 1, frameProgress := 3 / 2 } := by
    norm_num [playbackTick, stepDuration, tickBurstState, initialState]
  have hfin : playbackTick tickFinalState 100 = { tickFinalState with isRunning := false } := by
    norm_num [playbackTick, stepDuration, tickFinalState, tickBurstState, initialState]
  have hfl : (⌊(5 : ℚ) / 2⌋) = 2 := by norm_num
  refine ⟨by norm_num [tickBurstState, initialState, stepDuration], ?_, ?_, ?_, ?_, ?_, by norm_num⟩
  · rw [hburst]
  · rw [hburst]
  · rw [hburst, hfl]
    intro hcl
    simp [tickBurstState, initialState] at hcl
  · rw [hfin]
  · rw [hfin]
    norm_num [tickFinalState]

/-- Claim C2 (amended): the step duration is `speedMs` clamped to
[20, 1000] and each tick adds `t/D` to the previous progress; but when the
result `p'` crosses 1 the clock advances `currentStep` by exactly one (not
by `floor(p')`), carrying `p' - 1` (which may itself exceed 1) as the new
progress, and when no further step remains it only sets
`isRunning := false`, leaving `currentStep` and the stored progress
unchanged — the stored progress is never clamped to 1 (the renderer, not
the clock, treats a stopped state as fully revealed). -/
theorem playbackTick_amended_spec (s : SolverState) (t p' : ℚ)
    (hp : p' = s.frameProgress + t / stepDuration s.speedMs) :
    (p' < 1 → playbackTick s t = { s with frameProgress := p' }) ∧
    (1 ≤ p' → s.currentStep + 1 < s.history.length →
      playbackTick s t =
        { s with currentStep := s.currentStep + 1, frameProgress := p' - 1 }) ∧
    (1 ≤ p' → s.history.length ≤ s.currentStep + 1 →
      playbackTick s t = { s with isRunning := false }) := by
  subst hp
  unfold playbackTick
  refine ⟨fun hlt => ?_, fun hge hroom => ?_, fun hge hlast => ?_⟩
  · rw [if_neg (by simpa using not_le.mpr hlt)]
  · rw [if_pos (by simpa using hge), if_neg (by omega)]
  · rw [if_pos (by simpa using hge), if_pos (by omega)]

/-- Witness for the amended C2 at the burst input: `p' = 5/2 ≥ 1` with a
further step available advances exactly one step and stores `3/2`. -/
theorem playbackTick_amended_spec_witness :
    (1 : ℚ) ≤ 5 / 2 ∧
    playbackTick tickBurstState 250 =
      { tickBurstState with currentStep := 1, frameProgress := 3 / 2 } := by
  have h := playbackTick_amended_spec tickBurstState 250 (5 / 2)
    (by norm_num [tickBurstState, initialState, stepDuration])
  have h2 := h.2.1 (by norm_num) (by simp [tickBurstState, initialState])
  refine ⟨by norm_num, ?_⟩
  rw [h2]
  norm_num [tickBurstState, initialState]

/-- Claim C3: applying a solve response whose solution has
`solved = false` and a non-empty history puts the cursor, in the same
atomic update, on the last frame with `frameProgress = 1` and
`isRunning = false`.  `updateSolverState` is a single pure state
transformer — the code performs one `update` call — so no intermediate
auto-animating state exists. -/
theorem failed_run_snaps_to_last_frame (s : SolverState) (data : SolveResponse)
    (sol : Solution) (hs : data.solution = some sol) (hfail : sol.solved = false)
    (hne : sol.history.getD [] ≠ []) :
    (updateSolverState s data).currentStep = (sol.history.getD []).length - 1 ∧
    (updateSolverState s data).frameProgress = 1 ∧
    (updateSolverState s data).isRunning = false := by
  unfold updateSolverState
  rw [hs]
  simp [hfail, List.isEmpty_iff, hne]

/-- Witness for C3: the concrete failed two-frame response lands on step
1 with progress 1, stopped. -/
theorem failed_run_snaps_to_last_frame_witness :
    failedResponse.solution = some failedSolution ∧
    failedSolution.solved = false ∧
    (updateSolverState initialState failedResponse).currentStep = 1 ∧
    (updateSolverState initialState failedResponse).frameProgress = 1 ∧
    (updateSolverState initialState failedResponse).isRunning = false := by
  have h := failed_run_snaps_to_last_frame initialState failedResponse failedSolution
    rfl rfl (by simp [failedSolution])
  exact ⟨rfl, rfl, h.1, h.2.1, h.2.2⟩

/-- Claim C4: the active frame is `History[min(currentStep, length-1)]`
(null on an empty history); the explorer list falls back through
`activeFrame.candidates`, then `Solution.final_candidates`, then `[]`;
the best candidate falls back through `activeFrame.best`, then
`Solution.best_candidate`, then null; and the best path defaults to
`Solution.path` when the resolved best has no path. -/
theorem canvas_fallback_resolution (h : List Frame) (cs : ℕ) (sol : Option Solution) :
    (h = [] → activeFrame h cs = none) ∧
    (h ≠ [] → activeFrame h cs = h[min cs (h.length - 1)]? ∧ (activeFrame h cs).isSome) ∧
    (∀ f cands, activeFrame h cs = some f → f.candidates = some cands →
      resolveExplorers h cs sol = cands) ∧
    ((activeFrame h cs).bind Frame.candidates = none →
      ∀ so fc, sol = some so → so.final_candidates = some fc →
        resolveExplorers h cs sol = fc) ∧
    ((activeFrame h cs).bind Frame.candidates = none →
      sol.bind Solution.final_candidates = none → resolveExplorers h cs sol = []) ∧
    (∀ f b, activeFrame h cs = some f → f.best = some b → resolveBest h cs sol = some b) ∧
    ((activeFrame h cs).bind Frame.best = none →
      resolveBest h cs sol = sol.bind Solution.best_candidate) ∧
    (∀ b p, resolveBest h cs sol = some b → b.path = some p →
      resolveBestPath h cs sol = p) ∧
    ((resolveBest h cs sol).bind Candidate.path = none →
      resolveBestPath h cs sol = (sol.bind Solution.path).getD []) := by
  refine ⟨fun he => ?_, fun hne => ?_, ?_, ?_, ?_, ?_, ?_, ?_, ?_⟩
  · subst he; rfl
  · refine ⟨rfl, ?_⟩
    have hlen : 0 < h.length := List.length_pos.mpr hne
    have hidx : min cs (h.length - 1) < h.length := by omega
    simp [activeFrame, List.getElem?_eq_getElem hidx]
  · intro f cands hf hc
    simp [resolveExplorers, hf, hc]
  · intro hnone so fc hso hfc
    simp [resolveExplorers, hnone, fallbackCandidates, hso, hfc]
  · intro hnone hsol
    simp [resolveExplorers, hnone, fallbackCandidates, hsol]
  · intro f b hf hb
    simp [resolveBest, hf, hb]
  · intro hnone
    simp [resolveBest, hnone, Option.orElse]
  · intro b p hb hp
    simp [resolveBestPath, hb, hp]
  · intro hnone
    simp [resolveBestPath, hnone, Option.orElse]

/-- Witness for C4 at concrete inputs: a one-frame history with data uses
the frame's own candidates, best and path; an empty history with a
terminal solution falls back to `final_candidates` and `Solution.path`. -/
theorem canvas_fallback_resolution_witness :
    resolveExplorers [dataFrame] 0 none = [pathCandidate] ∧
    resolveBest [dataFrame] 0 none = some pathCandidate ∧
    resolveBestPath [dataFrame] 0 none = [(0, 0)] ∧
    activeFrame ([] : List Frame) 0 = none ∧
    resolveExplorers [] 0 (some fallbackSolution) = [pathCandidate] ∧
    resolveBestPath [] 0 (some fallbackSolution) = [(1, 1)] := by
  have h1 := canvas_fallback_resolution [dataFrame] 0 none
  have h2 := canvas_fallback_resolution [] 0 (some fallbackSolution)
  refine ⟨?_, ?_, ?_, ?_, ?_, ?_⟩
  · exact h1.2.2.1 dataFrame [pathCandidate] rfl rfl
  · exact h1.2.2.2.2.2.1 dataFrame pathCandidate rfl rfl
  · exact h1.2.2.2.2.2.2.2.1 pathCandidate [(0, 0)]
      (h1.2.2.2.2.2.1 dataFrame pathCandidate rfl rfl) rfl
  · exact h2.1 rfl
  · exact h2.2.2.2.1 rfl fallbackSolution [pathCandidate] rfl rfl
  · exact h2.2.2.2.2.2.2.2.2 rfl

/-- Claim C5: the composite render is deterministic and self-contained —
its result does not depend on what the raster surface held before, the
surface is resized to exactly `cols*CELL_SIZE` by `rows*CELL_SIZE`, and
its content after the pass is exactly this pass's command trace, so no
content from a previous differently-sized maze persists. -/
theorem drawMaze_deterministic_and_cleared (c₁ c₂ : CanvasSurface) (a : DrawArgs)
    (hm : a.maze ≠ []) :
    drawMazeOn c₁ a = drawMazeOn c₂ a ∧
    (drawMazeOn c₁ a).width = ((a.maze.head?.getD []).length : ℚ) * CELL_SIZE ∧
    (drawMazeOn c₁ a).height = (a.maze.length : ℚ) * CELL_SIZE ∧
    (drawMazeOn c₁ a).content = renderOps a := by
  have hlen : a.maze.length ≠ 0 := by
    exact fun hz => hm (List.length_eq_zero.mp hz)
  unfold drawMazeOn
  rw [if_neg hlen, if_neg hlen]
  simp [setCanvasSize, clearFull]

/-- Witness for C5: on a concrete one-cell maze, rendering onto a stale
480x480 canvas and onto a blank one gives identical 24x24 results whose
content is exactly the fresh trace. -/
theorem drawMaze_deterministic_and_cleared_witness :
    tinyArgs.maze ≠ [] ∧
    drawMazeOn staleCanvas tinyArgs = drawMazeOn blankCanvas tinyArgs ∧
    (drawMazeOn staleCanvas tinyArgs).width = 24 ∧
    (drawMazeOn staleCanvas tinyArgs).height = 24 ∧
    (drawMazeOn staleCanvas tinyArgs).content = renderOps tinyArgs := by
  have h := drawMaze_deterministic_and_cleared staleCanvas blankCanvas tinyArgs
    (by simp [tinyArgs])
  refine ⟨by simp [tinyArgs], h.1, ?_, ?_, h.2.2.2⟩
  · rw [h.2.1]; norm_num [tinyArgs, CELL_SIZE]
  · rw [h.2.2.1]; norm_num [tinyArgs, CELL_SIZE]

/-- Claim C8: in one composite pass the pheromone background is emitted
only for the ant algorithm with its toggle on and a map present, the
fitness heat field only for the genetic algorithm with its toggle on and
explorers present, and the two background overlays are never both
emitted. -/
theorem overlay_mutual_exclusion (a : DrawArgs) :
    (pheromoneLayerOps a ≠ [] →
      a.algorithmType = AlgorithmType.ant ∧ a.showPheromones = true ∧
        a.pheromoneMap.isSome = true) ∧
    (heatmapLayerOps a ≠ [] →
      a.algorithmType = AlgorithmType.genetic ∧ a.showHeatmap = true ∧
        a.explorers ≠ []) ∧
    (pheromoneLayerOps a = [] ∨ heatmapLayerOps a = []) := by
  refine ⟨?_, ?_, ?_⟩
  · intro hne
    have hg : pheromoneGuard a = true := by
      by_contra hfalse
      rw [Bool.not_eq_true] at hfalse
      exact hne (by simp [pheromoneLayerOps, hfalse])
    simp only [pheromoneGuard, Bool.and_eq_true, decide_eq_true_eq] at hg
    exact ⟨hg.1.2, hg.1.1, hg.2⟩
  · intro hne
    have hg : heatmapGuard a = true := by
      by_contra hfalse
      rw [Bool.not_eq_true] at hfalse
      exact hne (by simp [heatmapLayerOps, hfalse])
    simp only [heatmapGuard, Bool.and_eq_true, decide_eq_true_eq,
      Bool.not_eq_true', List.isEmpty_eq_false] at hg
    exact ⟨hg.1.2, hg.1.1, hg.2⟩
  · cases halg : a.algorithmType
    case ant => exact Or.inr (by simp [heatmapLayerOps, heatmapGuard, halg])
    case genetic => exact Or.inl (by simp [pheromoneLayerOps, pheromoneGuard, halg])
    case pso => exact Or.inl (by simp [pheromoneLayerOps, pheromoneGuard, halg])
    case firefly => exact Or.inl (by simp [pheromoneLayerOps, pheromoneGuard, halg])

/-- Witness for C8: a concrete ant-colony pass emits a non-empty
pheromone layer and no heat field, a concrete genetic pass emits a
non-empty heat field, and the implications of the theorem hold at both. -/
theorem overlay_mutual_exclusion_witness :
    pheromoneLayerOps antArgs ≠ [] ∧
    antArgs.algorithmType = AlgorithmType.ant ∧
    heatmapLayerOps geneticArgs ≠ [] ∧
    geneticArgs.algorithmType = AlgorithmType.genetic ∧
    (pheromoneLayerOps antArgs = [] ∨ heatmapLayerOps antArgs = []) := by
  have hpne : pheromoneLayerOps antArgs ≠ [] := by
    simp [pheromoneLayerOps, pheromoneGuard, antArgs, tinyArgs, drawPheromoneTrailsOps]
  have hhne : heatmapLayerOps geneticArgs ≠ [] := by
    simp [heatmapLayerOps, heatmapGuard, geneticArgs, tinyArgs, drawFitnessHeatmapOps,
      heatCellVisits, heatMaxVisits, pathCandidate, bumpAssoc, maxAssoc]
  have h1 := overlay_mutual_exclusion antArgs
  have h2 := overlay_mutual_exclusion geneticArgs
  exact ⟨hpne, (h1.1 hpne).1, hhne, (h2.2.1 hhne).1, h1.2.2⟩

/-- Claim C9: when `isRunning` is false the effective progress used by
every trajectory layer is 1 regardless of `frameProgress`, and the whole
composite trace is unchanged by any `frameProgress` value; `frameProgress`
influences the drawn prefix only while running. -/
theorem stopped_render_fully_revealed (a : DrawArgs) (p : ℚ) (h : a.isRunning = false) :
    effectiveProgress a = 1 ∧
    renderOps { a with frameProgress := p } = renderOps a ∧
    ∀ c, drawMazeOn c { a with frameProgress := p } = drawMazeOn c a := by
  have heff : effectiveProgress a = 1 := by simp [effectiveProgress, h]
  have heff2 : effectiveProgress { a with frameProgress := p } = 1 := by
    simp [effectiveProgress, h]
  have hro : renderOps { a with frameProgress := p } = renderOps a := by
    unfold renderOps
    rw [heff, heff2]
    rfl
  exact ⟨heff, hro, fun c => by simp [drawMazeOn, hro]⟩

/-- Witness for C9: the stopped one-cell render at any stored progress
equals the same render, with effective progress 1. -/
theorem stopped_render_fully_revealed_witness :
    tinyArgs.isRunning = false ∧
    effectiveProgress tinyArgs = 1 ∧
    renderOps { tinyArgs with frameProgress := 1 / 2 } = renderOps tinyArgs := by
  have h := stopped_render_fully_revealed tinyArgs (1 / 2) rfl
  exact ⟨rfl, h.1, h.2.1⟩

/-- Claim C10: Canvas.jsx omits `showMetrics` from its `drawMaze` call,
so the forwarded argument is falsy and the HUD block — the only producer
of the diversity and convergence indicator bars — is empty on every
Canvas-initiated render, whatever the state's `showMetrics` toggle. -/
theorem canvas_never_draws_metrics_hud (s : SolverState) (a : DrawArgs) (w h : ℚ) :
    (canvasDrawArgs s).showMetrics = false ∧
    hudOps { a with showMetrics := false } w h = [] ∧
    hudOps (canvasDrawArgs s) w h = [] := by
  refine ⟨rfl, ?_, ?_⟩
  · simp [hudOps]
  · simp [hudOps, canvasDrawArgs]

/-- Helper: the Euclidean distance from a position to itself is zero. -/
theorem euclidDist_self (p : Pos) : euclidDist p p = 0 := by
  unfold euclidDist
  simp

/-- Helper: Euclidean distances are non-negative, hence so is the
convergence average. -/
theorem convergenceAvgDistance_nonneg (explorers : List Candidate) (bp : Pos) :
    0 ≤ convergenceAvgDistance explorers bp := by
  unfold convergenceAvgDistance
  set dists := explorers.filterMap fun e => (endPosition e).map fun p => euclidDist p bp
    with hdists
  have hsum : 0 ≤ dists.sum := by
    apply List.sum_nonneg
    intro x hx
    rw [hdists, List.mem_filterMap] at hx
    obtain ⟨e, -, hmap⟩ := hx
    obtain ⟨q, -, rfl⟩ := Option.map_eq_some'.mp hmap
    exact Real.sqrt_nonneg _
  by_cases hpos : 0 < dists.length
  · rw [if_pos hpos]
    positivity
  · rw [if_neg hpos]

/-- Helper: for a list of candidates that all carry a valid end position,
the filterMap of distances is the plain per-candidate map. -/
theorem convergence_dists_eq_map (explorers : List Candidate) (bp : Pos)
    (hall : ∀ e ∈ explorers, (endPosition e).isSome) :
    (explorers.filterMap fun e => (endPosition e).map fun p => euclidDist p bp) =
      explorers.map fun e => euclidDist ((endPosition e).getD bp) bp := by
  induction explorers with
  | nil => rfl
  | cons x xs ih =>
    obtain ⟨q, hq⟩ := Option.isSome_iff_exists.mp (hall x (by simp))
    rw [List.filterMap_cons, hq]
    simp only [Option.map_some', List.map_cons]
    rw [ih fun e he => hall e (by simp [he])]
    simp [hq]

/-- Helper: when every candidate shares the best end position the
convergence average is zero. -/
theorem convergenceAvgDistance_all_eq (explorers : List Candidate) (bp : Pos)
    (hne : explorers ≠ []) (hall : ∀ e ∈ explorers, endPosition e = some bp) :
    convergenceAvgDistance explorers bp = 0 := by
  have hz : ∀ x ∈ explorers.map fun e => euclidDist ((endPosition e).getD bp) bp, x = 0 := by
    intro x hx
    obtain ⟨e, he, rfl⟩ := List.mem_map.mp hx
    rw [hall e he]
    simpa using euclidDist_self bp
  have hlen : 0 < explorers.length := List.length_pos.mpr hne
  unfold convergenceAvgDistance
  rw [convergence_dists_eq_map explorers bp fun e he => by rw [hall e he]; rfl]
  simp only [List.sum_eq_zero hz, List.length_map]
  rw [if_pos hlen]
  simp

/-- Helper: the code's guarded branch of `calculateConvergence` in the
interesting case. -/
theorem calculateConvergence_formula (explorers : List Candidate) (b : Candidate)
    (bp : Pos) (hbp : endPosition b = some bp) (hlen : 2 ≤ explorers.length) :
    calculateConvergence explorers (some b) =
      1 / (1 + convergenceAvgDistance explorers bp) := by
  simp only [calculateConvergence]
  rw [if_neg (by omega), hbp]

/-- Claim C6: the fallback convergence metric is `1/(1 + avgDistance)`
with `avgDistance` the mean Euclidean distance from each candidate's end
position to the best one's; it is 1 when every candidate sits exactly on
the best end position, tends to 0 as the mean distance grows without
bound, and is 0 with fewer than two candidates or no best candidate. -/
theorem calculateConvergence_spec :
    (∀ (explorers : List Candidate) (b : Option Candidate),
      explorers.length < 2 ∨ b = none → calculateConvergence explorers b = 0) ∧
    (∀ (explorers : List Candidate) (b : Candidate) (bp : Pos),
      endPosition b = some bp → 2 ≤ explorers.length →
      calculateConvergence explorers (some b) =
        1 / (1 + convergenceAvgDistance explorers bp)) ∧
    (∀ (explorers : List Candidate) (bp : Pos),
      (∀ e ∈ explorers, (endPosition e).isSome) → explorers ≠ [] →
      convergenceAvgDistance explorers bp =
        (explorers.map fun e => euclidDist ((endPosition e).getD bp) bp).sum /
          (explorers.length : ℝ)) ∧
    (∀ (explorers : List Candidate) (b : Candidate) (bp : Pos),
      endPosition b = some bp → 2 ≤ explorers.length →
      (∀ e ∈ explorers, endPosition e = some bp) →
      calculateConvergence explorers (some b) = 1) ∧
    (∀ ε : ℝ, 0 < ε → ∃ M : ℝ, ∀ (explorers : List Candidate) (b : Candidate) (bp : Pos),
      endPosition b = some bp → 2 ≤ explorers.length →
      M < convergenceAvgDistance explorers bp →
      calculateConvergence explorers (some b) < ε) := by
  refine ⟨?_, ?_, ?_, ?_, ?_⟩
  · rintro explorers b (hlt | rfl)
    · cases b with
      | none => rfl
      | some bc =>
        simp only [calculateConvergence]
        rw [if_pos hlt]
    · rfl
  · exact calculateConvergence_formula
  · intro explorers bp hall hne
    unfold convergenceAvgDistance
    rw [convergence_dists_eq_map explorers bp hall]
    have hlen : 0 < explorers.length := List.length_pos.mpr hne
    rw [if_pos (by simpa using hlen)]
    simp
  · intro explorers b bp hbp hlen hall
    rw [calculateConvergence_formula explorers b bp hbp hlen,
      convergenceAvgDistance_all_eq explorers bp (by rintro rfl; simp at hlen) hall]
    norm_num
  · intro ε hε
    refine ⟨1 / ε, fun explorers b bp hbp hlen havg => ?_⟩
    rw [calculateConvergence_formula explorers b bp hbp hlen]
    have hinv : 0 < 1 / ε := by positivity
    have h1 : 1 / ε < 1 + convergenceAvgDistance explorers bp := by
      have := convergenceAvgDistance_nonneg explorers bp
      linarith
    calc 1 / (1 + convergenceAvgDistance explorers bp) < 1 / (1 / ε) :=
        one_div_lt_one_div_of_lt hinv h1
      _ = ε := one_div_one_div ε

/-- Witness for C6: two candidates standing exactly on the best position
give convergence 1; an empty population with no best gives 0. -/
theorem calculateConvergence_spec_witness :
    endPosition (atPos (2, 3)) = some (2, 3) ∧
    calculateConvergence [atPos (2, 3), atPos (2, 3)] (some (atPos (2, 3))) = 1 ∧
    calculateConvergence [] none = 0 := by
  have h := calculateConvergence_spec
  refine ⟨rfl, ?_, h.1 [] none (Or.inr rfl)⟩
  refine h.2.2.2.1 [atPos (2, 3), atPos (2, 3)] (atPos (2, 3)) (2, 3) rfl (by norm_num) ?_
  intro e he
  rcases List.mem_cons.mp he with rfl | h2
  · rfl
  · rw [List.mem_singleton.mp h2]
    rfl

/-- Helper: a list with at least two elements yields at least one
ordered pair. -/
theorem pairsAfter_length_pos (l : List Pos) (h : 2 ≤ l.length) :
    0 < (pairsAfter l).length := by
  match l, h with
  | x :: y :: t, _ =>
    simp [pairsAfter]

/-- Claim C7: the fallback diversity metric is the average pairwise
Euclidean distance between the candidates' end positions divided by
`sqrt(rows*cols)`; it is 0 with fewer than two valid end positions, and
in particular 0 for two candidates sharing one end position. -/
theorem calculateDiversity_spec :
    (∀ (explorers : List Candidate) (maze : List (List ℕ)),
      (explorers.filterMap endPosition).length < 2 →
      calculateDiversity explorers maze = 0) ∧
    (∀ (explorers : List Candidate) (maze : List (List ℕ)) (row : List ℕ),
      maze.head? = some row → row ≠ [] →
      2 ≤ (explorers.filterMap endPosition).length →
      calculateDiversity explorers maze =
        ((pairsAfter (explorers.filterMap endPosition)).map
            fun pq => euclidDist pq.1 pq.2).sum /
          ((pairsAfter (explorers.filterMap endPosition)).length : ℝ) /
          Real.sqrt ((maze.length : ℝ) * (row.length : ℝ))) ∧
    (∀ (e₁ e₂ : Candidate) (maze : List (List ℕ)) (p : Pos),
      endPosition e₁ = some p → endPosition e₂ = some p →
      calculateDiversity [e₁, e₂] maze = 0) := by
  refine ⟨?_, ?_, ?_⟩
  · intro explorers maze h
    unfold calculateDiversity
    by_cases hlt : explorers.length < 2
    · rw [if_pos hlt]
    · rw [if_neg hlt]
      simp [h]
  · intro explorers maze row hrow hne hlen
    have hexp : ¬explorers.length < 2 := by
      have := List.length_filterMap_le endPosition explorers
      omega
    have hcols : jsCols maze = row.length := by
      simp [jsCols, hrow, List.length_eq_zero, hne]
    have hpos : 0 < (pairsAfter (explorers.filterMap endPosition)).length :=
      pairsAfter_length_pos _ hlen
    unfold calculateDiversity
    rw [if_neg hexp]
    simp only [if_neg (Nat.not_lt.mpr hlen), if_pos hpos, hcols]
  · intro e₁ e₂ maze p h1 h2
    have hfm : [e₁, e₂].filterMap endPosition = [p, p] := by
      simp [List.filterMap_cons, h1, h2]
    unfold calculateDiversity
    simp [hfm, pairsAfter, euclidDist_self]

/-- Witness for C7: two candidates at the same position give diversity 0
through the identical-end-position clause, and a single candidate gives 0
through the too-few-positions clause. -/
theorem calculateDiversity_spec_witness :
    endPosition (atPos (1, 1)) = some (1, 1) ∧
    calculateDiversity [atPos (1, 1), atPos (1, 1)] [[0]] = 0 ∧
    calculateDiversity [pathCandidate] [[0]] = 0 := by
  have h := calculateDiversity_spec
  refine ⟨rfl, h.2.2 (atPos (1, 1)) (atPos (1, 1)) [[0]] (1, 1) rfl rfl, ?_⟩
  exact h.1 [pathCandidate] [[0]] (by simp [pathCandidate, endPosition])

end MazeSpec
